import Mathlib

/- Verification development for the LLamar LLMNR implementation.

   The Python modules packets.py, responder.py and sender.py are shallowly
   embedded below.  Python bytearrays become `List Nat` (each entry a byte),
   Python str values become `List Nat` (each entry a Unicode codepoint), and
   every fallible code path returns `Res`, which distinguishes a returned
   value, a raised exception, and divergence (modelled with explicit fuel). -/

/-- Python exception kinds raised by the embedded code paths. -/
inductive PyErr where
  | indexError
  | structError
  | unicodeDecodeError
  | unicodeEncodeError
  | nameError
  | valueError
  | keyError
deriving DecidableEq, Repr

/-- Result of running a piece of Python code under a fuel bound: a returned
value, a raised exception, or divergence (fuel exhausted). -/
inductive Res (α : Type) where
  | ok : α → Res α
  | err : PyErr → Res α
  | diverge : Res α
deriving DecidableEq, Repr

/-- Sequencing of fallible computations: exceptions and divergence
propagate. -/
def Res.bind {α β : Type} (r : Res α) (f : α → Res β) : Res β :=
  match r with
  | .ok a => f a
  | .err e => .err e
  | .diverge => .diverge

/-- Did the computation return a value (as opposed to raising or
diverging)? -/
def Res.isOk {α : Type} : Res α → Bool
  | .ok _ => true
  | _ => false

/-- `data[n]` on a Python bytearray: IndexError when out of range. -/
def pyIndex (data : List Nat) (n : Nat) : Res Nat :=
  match data[n]? with
  | some b => .ok b
  | none => .err .indexError

/-- `data[a:b]` on a Python sequence: a clamping slice, never raises. -/
def pySlice {γ : Type} (data : List γ) (a b : Nat) : List γ :=
  (data.take b).drop a

/-- struct.unpack of one big-endian u16 taken from data[n:n+2]. -/
def unpack16 (data : List Nat) (n : Nat) : Res Nat :=
  match pySlice data n (n + 2) with
  | [b1, b0] => .ok (b1 * 256 + b0)
  | _ => .err .structError

/-- struct.unpack of two big-endian u16 values taken from data[n:n+4]. -/
def unpackHH (data : List Nat) (n : Nat) : Res (Nat × Nat) :=
  match pySlice data n (n + 4) with
  | [a1, a0, b1, b0] => .ok (a1 * 256 + a0, b1 * 256 + b0)
  | _ => .err .structError

/-- struct.unpack of a big-endian u32 then u16 taken from data[n:n+6]. -/
def unpackLH (data : List Nat) (n : Nat) : Res (Nat × Nat) :=
  match pySlice data n (n + 6) with
  | [t3, t2, t1, t0, l1, l0] =>
    .ok (((t3 * 256 + t2) * 256 + t1) * 256 + t0, l1 * 256 + l0)
  | _ => .err .structError

/-- Encode one codepoint to UTF-8 bytes, as Python str.encode does.
Surrogate codepoints raise UnicodeEncodeError in Python. -/
def utf8EncodeChar (c : Nat) : Res (List Nat) :=
  if c < 0x80 then .ok [c]
  else if c < 0x800 then .ok [0xc0 + c / 64, 0x80 + c % 64]
  else if 0xd800 ≤ c ∧ c ≤ 0xdfff then .err .unicodeEncodeError
  else if c < 0x10000 then
    .ok [0xe0 + c / 4096, 0x80 + c / 64 % 64, 0x80 + c % 64]
  else if c < 0x110000 then
    .ok [0xf0 + c / 262144, 0x80 + c / 4096 % 64, 0x80 + c / 64 % 64,
         0x80 + c % 64]
  else .err .valueError

/-- Encode a whole Python string (list of codepoints) to UTF-8 bytes. -/
def utf8Encode : List Nat → Res (List Nat)
  | [] => .ok []
  | c :: rest =>
    Res.bind (utf8EncodeChar c) fun bs =>
    Res.bind (utf8Encode rest) fun tail => .ok (bs ++ tail)

/-- Is a byte a UTF-8 continuation byte? -/
def isCont (b : Nat) : Bool :=
  if 0x80 ≤ b ∧ b ≤ 0xbf then true else false

/-- Decode one UTF-8 sequence starting at leader byte b with the given
following bytes: the codepoint and the bytes left over.  Strict, as
Python bytes.decode: truncated sequences, stray continuation bytes,
overlong forms, surrogates and codepoints above U+10FFFF all raise
UnicodeDecodeError. -/
def utf8Step (b : Nat) (rest : List Nat) : Res (Nat × List Nat) :=
  if b < 0x80 then .ok (b, rest)
  else if b < 0xc2 then .err .unicodeDecodeError
  else if b < 0xe0 then
    match rest with
    | b1 :: rest1 =>
      if isCont b1 then .ok ((b - 0xc0) * 64 + (b1 - 0x80), rest1)
      else .err .unicodeDecodeError
    | [] => .err .unicodeDecodeError
  else if b < 0xf0 then
    match rest with
    | b1 :: b2 :: rest2 =>
      if (if b = 0xe0 then (if 0xa0 ≤ b1 ∧ b1 ≤ 0xbf then true else false)
          else if b = 0xed then (if 0x80 ≤ b1 ∧ b1 ≤ 0x9f then true else false)
          else isCont b1) && isCont b2 then
        .ok ((b - 0xe0) * 4096 + (b1 - 0x80) * 64 + (b2 - 0x80), rest2)
      else .err .unicodeDecodeError
    | _ => .err .unicodeDecodeError
  else if b < 0xf5 then
    match rest with
    | b1 :: b2 :: b3 :: rest3 =>
      if (if b = 0xf0 then (if 0x90 ≤ b1 ∧ b1 ≤ 0xbf then true else false)
          else if b = 0xf4 then (if 0x80 ≤ b1 ∧ b1 ≤ 0x8f then true else false)
          else isCont b1) && isCont b2 && isCont b3 then
        .ok ((b - 0xf0) * 262144 + (b1 - 0x80) * 4096 + (b2 - 0x80) * 64
             + (b3 - 0x80), rest3)
      else .err .unicodeDecodeError
    | _ => .err .unicodeDecodeError
  else .err .unicodeDecodeError

/-- Iterate utf8Step; the fuel is an upper bound on the number of decoded
characters, and each step consumes at least the leader byte, so a fuel of
the byte length never runs out. -/
def utf8Run : Nat → List Nat → Res (List Nat)
  | _, [] => .ok []
  | 0, _ :: _ => .diverge
  | fuel + 1, b :: rest =>
    Res.bind (utf8Step b rest) fun cr =>
    Res.bind (utf8Run fuel cr.2) fun cs => .ok (cr.1 :: cs)

/-- Strict UTF-8 decoding of a byte string to a list of codepoints, as
Python bytes.decode. -/
def utf8Decode (bs : List Nat) : Res (List Nat) := utf8Run bs.length bs

/-- One iteration of the name-decoding loop of Question.__init__
(packets.py lines 61-69).  The state is the current offset N, the labels
accumulated so far, and the saved return offset.

The loop checks data[N] for the terminating zero; when the two high bits
of data[N] are set it follows a compression pointer, recording
saved = N + 1 and masking the unpacked u16 with 0x3f as the source does;
it then unconditionally appends the label found at the current position
and advances N past it.  On exit, N is reset to saved when a pointer was
ever followed, then incremented past the zero byte. -/
def nameStep (data : List Nat) (st : Nat × List (List Nat) × Option Nat) :
    Sum (Nat × List (List Nat) × Option Nat) (Res (List (List Nat) × Nat)) :=
  match st with
  | (N, labels, saved) =>
    match pyIndex data N with
    | .err e => .inr (.err e)
    | .diverge => .inr .diverge
    | .ok b =>
      if b = 0 then
        .inr (.ok (labels, (match saved with | some s => s | none => N) + 1))
      else
        match (if b &&& 0xc0 = 0xc0 then
                 match unpack16 data N with
                 | .ok w => .ok (0x3f &&& w, some (N + 1))
                 | .err e => .err e
                 | .diverge => .diverge
               else .ok (N, saved) : Res (Nat × Option Nat)) with
        | .err e => .inr (.err e)
        | .diverge => .inr .diverge
        | .ok (N2, saved2) =>
          match pyIndex data N2 with
          | .err e => .inr (.err e)
          | .diverge => .inr .diverge
          | .ok len =>
            match utf8Decode (pySlice data (N2 + 1) (N2 + 1 + len)) with
            | .err e => .inr (.err e)
            | .diverge => .inr .diverge
            | .ok label => .inl (N2 + 1 + len, labels ++ [label], saved2)

/-- The fueled iteration of nameStep: the while loop itself. -/
def nameRun (data : List Nat) :
    Nat → Nat × List (List Nat) × Option Nat → Res (List (List Nat) × Nat)
  | 0, _ => .diverge
  | fuel + 1, st =>
    match nameStep data st with
    | .inl st2 => nameRun data fuel st2
    | .inr r => r

/-- Run the name-decoding loop from a given offset with empty label
accumulator and no saved offset, under the given fuel. -/
def nameLoop (data : List Nat) (fuel offset : Nat) : Res (List (List Nat) × Nat) :=
  nameRun data fuel (offset, [], none)

/-- A decoded DNS question: labels, TYPE, CLASS and the stored length. -/
structure QuestionV where
  labels : List (List Nat)
  TYPE : Nat
  CLASS : Nat
  qlen : Nat
deriving DecidableEq, Repr

/-- Question.__init__ on bytearray data (packets.py lines 60-71). -/
def decodeQuestion (data : List Nat) (offset fuel : Nat) : Res QuestionV :=
  Res.bind (nameLoop data fuel offset) fun (labels, N) =>
  Res.bind (unpackHH data N) fun (t, c) =>
  .ok ⟨labels, t, c, N + 4 - offset⟩

/-- A decoded DNS resource record (packets.py ResourceRecord). -/
structure RRV where
  labels : List (List Nat)
  TYPE : Nat
  CLASS : Nat
  TTL : Nat
  RDLENGTH : Nat
  RDATA : List Nat
  rlen : Nat
deriving DecidableEq, Repr

/-- ResourceRecord.__init__ on bytearray data (packets.py lines 113-119):
the question part, then struct.unpack of TTL and RDLENGTH, then a clamping
slice of RDLENGTH bytes of RDATA. -/
def decodeRR (data : List Nat) (offset fuel : Nat) : Res RRV :=
  Res.bind (decodeQuestion data offset fuel) fun q =>
  Res.bind (unpackLH data (offset + q.qlen)) fun (ttl, rdlen) =>
  .ok ⟨q.labels, q.TYPE, q.CLASS, ttl, rdlen,
       pySlice data (offset + q.qlen + 6) (offset + q.qlen + 6 + rdlen),
       q.qlen + 6 + rdlen⟩

/-- struct.unpack of the 12-byte header format string on data[:12]. -/
def unpackHeader (data : List Nat) :
    Res (Nat × Nat × Nat × Nat × Nat × Nat × Nat) :=
  match pySlice data 0 12 with
  | [i1, i0, fl, co, q1, q0, a1, a0, n1, n0, r1, r0] =>
    .ok (i1 * 256 + i0, fl, co, q1 * 256 + q0, a1 * 256 + a0, n1 * 256 + n0,
         r1 * 256 + r0)
  | _ => .err .structError

/-- The question-section loop of Packet.__init__ (lines 158-162): decode
count questions, each advancing the offset by the question just decoded. -/
def decodeQuestions (data : List Nat) (fuel : Nat) :
    Nat → Nat → Res (List QuestionV × Nat)
  | 0, N => .ok ([], N)
  | k + 1, N =>
    Res.bind (decodeQuestion data N fuel) fun q =>
    Res.bind (decodeQuestions data fuel k (N + q.qlen)) fun (qs, M) =>
    .ok (q :: qs, M)

/-- The answer-section loop of Packet.__init__ (lines 163-167) and the
additional-section loop (lines 173-177): each iteration advances the
offset by the record just decoded. -/
def decodeRRs (data : List Nat) (fuel : Nat) :
    Nat → Nat → Res (List RRV × Nat)
  | 0, N => .ok ([], N)
  | k + 1, N =>
    Res.bind (decodeRR data N fuel) fun r =>
    Res.bind (decodeRRs data fuel k (N + r.rlen)) fun (rs, M) =>
    .ok (r :: rs, M)

/-- The authority-section loop of Packet.__init__ (lines 168-172).  The
source advances the offset with N += len(A), where A is the loop variable
of the ANSWER loop: each iteration moves by the length of the last decoded
answer record, and when the answer section was empty the name A is unbound,
so referencing it raises NameError (after the current record was parsed). -/
def decodeNameservers (data : List Nat) (fuel : Nat)
    (lastAnswerLen : Option Nat) : Nat → Nat → Res (List RRV × Nat)
  | 0, N => .ok ([], N)
  | k + 1, N =>
    Res.bind (decodeRR data N fuel) fun s =>
    match lastAnswerLen with
    | none => .err .nameError
    | some l =>
      Res.bind (decodeNameservers data fuel lastAnswerLen k (N + l)) fun (rs, M) =>
      .ok (s :: rs, M)

/-- A decoded LLMNR packet (packets.py Packet).  flags is the single byte
unpacked with format B: the high byte of the 16-bit flags word. -/
structure PacketV where
  ID : Nat
  flags : Nat
  RCODE : Nat
  questions : List QuestionV
  answers : List RRV
  nameservers : List RRV
  additional : List RRV
deriving DecidableEq, Repr

/-- The section-decoding part of Packet.__init__ (lines 157-177), after
the seven header fields have been unpacked. -/
def decodeSections (data : List Nat) (fuel pid fl co qd an nsc ar : Nat) :
    Res PacketV :=
  Res.bind (decodeQuestions data fuel qd 12) fun qn =>
  Res.bind (decodeRRs data fuel an qn.2) fun a2 =>
  Res.bind (decodeNameservers data fuel ((a2.1.getLast?).map RRV.rlen) nsc a2.2)
    fun s2 =>
  Res.bind (decodeRRs data fuel ar s2.2) fun r2 =>
  .ok ⟨pid, fl, co &&& 0xf, qn.1, a2.1, s2.1, r2.1⟩

/-- Packet.__init__ on bytearray data (packets.py lines 153-177). -/
def decodePacket (data : List Nat) (fuel : Nat) : Res PacketV :=
  Res.bind (unpackHeader data) fun h =>
  decodeSections data fuel h.1 h.2.1 h.2.2.1 h.2.2.2.1 h.2.2.2.2.1
    h.2.2.2.2.2.1 h.2.2.2.2.2.2

/-- Packet.QR: bit 7 of the flags byte (bit 15 of the flags word). -/
def PacketV.QR (p : PacketV) : Bool := p.flags &&& 0x80 != 0

/-- Packet.OPCODE exactly as written in packets.py line 198: the Python
expression flags & 0x78 >> 3 groups as flags & (0x78 >> 3) because the
shift binds tighter than the bitwise and. -/
def PacketV.OPCODE (p : PacketV) : Nat := p.flags &&& (0x78 >>> 3)

/-- OPCODE as the specification states it: bits 14..11 of the flags word,
so mask the flags byte with 0x78 first and shift afterwards. -/
def specOPCODE (flags : Nat) : Nat := (flags &&& 0x78) >>> 3

/-- Packet.C: conflict bit (bit 10 of the flags word). -/
def PacketV.C (p : PacketV) : Bool := p.flags &&& 0x4 != 0

/-- Packet.TC: truncation bit (bit 9 of the flags word). -/
def PacketV.TC (p : PacketV) : Bool := p.flags &&& 0x2 != 0

/-- Packet.T: tentative bit (bit 8 of the flags word). -/
def PacketV.T (p : PacketV) : Bool := p.flags &&& 0x1 != 0

def PacketV.QDCOUNT (p : PacketV) : Nat := p.questions.length

def PacketV.ANCOUNT (p : PacketV) : Nat := p.answers.length

def PacketV.NSCOUNT (p : PacketV) : Nat := p.nameservers.length

def PacketV.ARCOUNT (p : PacketV) : Nat := p.additional.length

/-- struct.pack('!H', x): raises struct.error unless x fits a u16. -/
def pack16 (x : Nat) : Res (List Nat) :=
  if x < 65536 then .ok [x / 256, x % 256] else .err .structError

/-- struct.pack('!B', x): raises struct.error unless x fits a byte. -/
def pack8 (x : Nat) : Res (List Nat) :=
  if x < 256 then .ok [x] else .err .structError

/-- struct.pack('!L', x): raises struct.error unless x fits a u32. -/
def pack32 (x : Nat) : Res (List Nat) :=
  if x < 4294967296 then
    .ok [x / 16777216 % 256, x / 65536 % 256, x / 256 % 256, x % 256]
  else .err .structError

/-- Concatenate two fallible byte strings, left error first. -/
def rcat (a b : Res (List Nat)) : Res (List Nat) :=
  match a, b with
  | .ok x, .ok y => .ok (x ++ y)
  | .err e, _ => .err e
  | .diverge, _ => .diverge
  | _, .err e => .err e
  | _, .diverge => .diverge

/-- One label as emitted by Question.bytes (packets.py lines 94-96):
result.append(len(label)) writes the CHARACTER count of the label, while
bytearray(label, 'utf-8') appends its UTF-8 bytes.  bytearray.append
raises ValueError when the count exceeds 255. -/
def encodeLabel (label : List Nat) : Res (List Nat) :=
  if label.length ≤ 255 then
    Res.bind (utf8Encode label) fun bs => .ok (label.length :: bs)
  else .err .valueError

/-- All labels of a name, in order, as emitted by Question.bytes. -/
def encodeLabels : List (List Nat) → Res (List Nat)
  | [] => .ok []
  | l :: ls => rcat (encodeLabel l) (encodeLabels ls)

/-- Question.bytes (packets.py lines 92-98): labels, the terminating zero,
then TYPE and CLASS packed big-endian. -/
def questionBytes (q : QuestionV) : Res (List Nat) :=
  rcat (encodeLabels q.labels)
    (rcat (.ok [0]) (rcat (pack16 q.TYPE) (pack16 q.CLASS)))

/-- ResourceRecord.bytes (packets.py lines 126-134): labels, zero, TYPE,
CLASS, TTL, the stored RDLENGTH field, then the RDATA bytes. -/
def rrBytes (r : RRV) : Res (List Nat) :=
  rcat (encodeLabels r.labels)
    (rcat (.ok [0])
      (rcat (pack16 r.TYPE)
        (rcat (pack16 r.CLASS)
          (rcat (pack32 r.TTL) (rcat (pack16 r.RDLENGTH) (.ok r.RDATA))))))

/-- Emit a whole section by concatenating the bytes of its entries. -/
def sectionBytes {α : Type} (f : α → Res (List Nat)) : List α → Res (List Nat)
  | [] => .ok []
  | x :: xs => rcat (f x) (sectionBytes f xs)

/-- Packet.bytes (packets.py lines 236-250): the header packed from ID,
flags, RCODE and the four section lengths, then the four sections. -/
def packetBytes (p : PacketV) : Res (List Nat) :=
  rcat (pack16 p.ID)
    (rcat (pack8 p.flags)
      (rcat (pack8 p.RCODE)
        (rcat (pack16 p.QDCOUNT)
          (rcat (pack16 p.ANCOUNT)
            (rcat (pack16 p.NSCOUNT)
              (rcat (pack16 p.ARCOUNT)
                (rcat (sectionBytes questionBytes p.questions)
                  (rcat (sectionBytes rrBytes p.answers)
                    (rcat (sectionBytes rrBytes p.nameservers)
                      (sectionBytes rrBytes p.additional))))))))))

/-- Responder._query_is_valid (responder.py lines 147-155). -/
def query_is_valid (p : PacketV) : Bool :=
  if p.QR = true || p.OPCODE != 0 || p.QDCOUNT != 1 || p.ANCOUNT != 0
     || p.NSCOUNT != 0 then
    false
  else
    true

/- Concrete inputs for the codec claims. -/

/-- bytearray([0x01, 0x61, 0xc0, 0x00]): a one-byte label followed by a
compression pointer whose masked offset is 0, so the name-decoding loop
revisits offset 0, re-reads the label, returns to the pointer, and never
exits. -/
def loopData : List Nat := [0x01, 0x61, 0xc0, 0x00]

/-- A packet whose flags byte is 0x04: QR=0, OPCODE bits (14..11) all
zero, C=1, with one question and empty answer and authority sections. -/
def flagCData : List Nat :=
  [0, 35, 4, 0, 0, 1, 0, 0, 0, 0, 0, 0] ++ [1, 97, 0, 0, 1, 0, 1]

/-- The packet that flagCData decodes to. -/
def flagCPacket : PacketV := ⟨35, 4, 0, [⟨[[97]], 1, 1, 7⟩], [], [], []⟩

/-- A valid packet byte string: QDCOUNT=0, ANCOUNT=1, NSCOUNT=2,
ARCOUNT=0, whose three records are exactly the 13-byte answer for name
"a", the 14-byte authority for name "bb" and the 13-byte authority for
name "c" - no compression pointers, counts consistent with the emitted
records.  The two authority records have different lengths from the
answer, which exposes the N += len(A) advance of the authority loop. -/
def c3Bytes : List Nat :=
  [0, 0, 0, 0, 0, 0, 0, 1, 0, 2, 0, 0] ++
  [1, 97, 0, 0, 1, 0, 1, 0, 0, 0, 30, 0, 0] ++
  [2, 98, 98, 0, 0, 2, 0, 1, 0, 0, 0, 30, 0, 0] ++
  [1, 99, 0, 0, 2, 0, 1, 0, 0, 0, 30, 0, 0]

/-- What decodePacket returns on c3Bytes: the second authority record is
read one byte early (at the last byte of the first authority record), so
its fields come from misaligned bytes. -/
def c3P : PacketV :=
  ⟨0, 0, 0, [],
   [⟨[[97]], 1, 1, 30, 0, [], 13⟩],
   [⟨[[98, 98]], 2, 1, 30, 0, [], 14⟩,
    ⟨[], 355, 0, 33554688, 0, [], 11⟩],
   []⟩

/-- What re-decoding the re-encoded c3P returns: the second authority
record is again read at a misaligned offset, now of the re-encoded bytes,
and comes out with yet other field values. -/
def c3P2 : PacketV :=
  ⟨0, 0, 0, [],
   [⟨[[97]], 1, 1, 30, 0, [], 13⟩],
   [⟨[[98, 98]], 2, 1, 30, 0, [], 14⟩,
    ⟨[], 1, 25344, 131073, 0, [], 11⟩],
   []⟩

/-- encode the packet decoded from c3Bytes, then decode the result. -/
def c3ReDecode : Res PacketV :=
  Res.bind (decodePacket c3Bytes (c3Bytes.length + 1)) fun p =>
  Res.bind (packetBytes p) fun b =>
  decodePacket b (b.length + 1)

/-- A packet byte string whose header declares QDCOUNT=1, ANCOUNT=0,
NSCOUNT=1 and whose single question contains a compression-pointer loop
(label "a" then a pointer back to offset 12): decoding diverges inside
the question name and never reaches the authority loop. -/
def c10Loop : List Nat :=
  [0, 0, 0, 0, 0, 1, 0, 0, 0, 1, 0, 0] ++ [1, 97, 192, 12]

/-- A 12-byte header alone declaring ANCOUNT=0 and NSCOUNT=1. -/
def c10Short : List Nat := [0, 0, 0, 0, 0, 0, 0, 0, 0, 1, 0, 0]

/- ============ Name round trip (claim C6) ============ -/

/-- The wire form of a name whose labels are pure ASCII: for such labels
the length byte written by Question.bytes equals the UTF-8 byte count. -/
def encPure : List (List Nat) → List Nat
  | [] => []
  | l :: ls => l.length :: l ++ encPure ls

/-- Encode a name as a Question of TYPE A, CLASS 1 via Question.bytes,
then decode the resulting byte string via Question.__init__ and return
the labels of the decoded question. -/
def nameRoundTrip (N : List (List Nat)) : Res (List (List Nat)) :=
  Res.bind (questionBytes ⟨N, 1, 1, 0⟩) fun b =>
  Res.bind (decodeQuestion b 0 (b.length + 1)) fun q =>
  .ok q.labels

/- ======= Python string helpers (responder, sender) ======= -/

/-- '.'.join(ls) on a list of Python strings. -/
def pyJoin : List (List Nat) → List Nat
  | [] => []
  | [l] => l
  | l :: ls => l ++ 46 :: pyJoin ls

/-- Worker for pySplit: accumulate the current chunk reversed. -/
def pySplitGo : List Nat → List Nat → List (List Nat)
  | [], cur => [cur.reverse]
  | c :: cs, cur =>
    if c = 46 then cur.reverse :: pySplitGo cs []
    else pySplitGo cs (c :: cur)

/-- s.split('.') on a Python string: always returns at least one chunk. -/
def pySplit (s : List Nat) : List (List Nat) := pySplitGo s []

/-- s.lower() restricted to ASCII, which covers every string handled by
the responder's PTR path (digits, hex digits, hyphens and dots). -/
def pyLower (s : List Nat) : List Nat :=
  s.map fun c => if 65 ≤ c ∧ c ≤ 90 then c + 32 else c

/-- xs[-k] on a Python list, for k >= 1: IndexError when the list is
shorter than k. -/
def pyNegIndex {γ : Type} (xs : List γ) (k : Nat) : Res γ :=
  if k ≤ xs.length then
    match xs[xs.length - k]? with
    | some x => .ok x
    | none => .err .indexError
  else .err .indexError

/- ============ Reverse-zone names (claim C7) ============ -/

/-- The Python string 'arpa'. -/
def arpaStr : List Nat := [97, 114, 112, 97]

/-- The Python string 'in-addr'. -/
def inAddrStr : List Nat := [105, 110, 45, 97, 100, 100, 114]

/-- The Python string 'ip6'. -/
def ip6Str : List Nat := [105, 112, 54]

/-- str(n) for n < 1000, which covers the octet values handled here. -/
def natDigits (n : Nat) : List Nat :=
  if n < 10 then [48 + n]
  else if n < 100 then [48 + n / 10, 48 + n % 10]
  else [48 + n / 100, 48 + n / 10 % 10, 48 + n % 10]

/-- The canonical dotted-quad string of an IPv4 address, the only string
form accepted by the socket.inet_pton validation in Sender._to_arpa. -/
def v4String (a b c d : Nat) : List Nat :=
  pyJoin [natDigits a, natDigits b, natDigits c, natDigits d]

/-- One lowercase hex digit, as produced by the %x format. -/
def hexDigit (v : Nat) : Nat := if v < 10 then 48 + v else 87 + v

/-- ''.join(['%.2x' % b for b in packed]): two lowercase hex characters
per byte. -/
def hexChars : List Nat → List Nat
  | [] => []
  | b :: bs => hexDigit (b / 16) :: hexDigit (b % 16) :: hexChars bs

/-- Sender._to_arpa (sender.py lines 257-261), IPv4 branch, after the
inet_pton validation succeeded: split the dotted address, reverse the
labels, append in-addr and arpa, and join. -/
def to_arpa_v4 (address : List Nat) : List Nat :=
  pyJoin ((pySplit address).reverse ++ [inAddrStr, arpaStr])

/-- Sender._to_arpa (sender.py lines 264-269), IPv6 branch, applied to
the packed 16-byte value returned by inet_pton: the 32 hex characters
become single-character labels, reversed, with ip6 and arpa appended. -/
def to_arpa_v6 (packed : List Nat) : List Nat :=
  pyJoin (((hexChars packed).reverse).map (fun c => [c]) ++ [ip6Str, arpaStr])

/-- int('0x' + s, 16): the value of one hex digit character. -/
def hexVal (c : Nat) : Res Nat :=
  if 48 ≤ c ∧ c ≤ 57 then .ok (c - 48)
  else if 97 ≤ c ∧ c ≤ 102 then .ok (c - 87)
  else if 65 ≤ c ∧ c ≤ 70 then .ok (c - 55)
  else .err .valueError

/-- Accumulate hex digits left to right. -/
def intHexAux : List Nat → Nat → Res Nat
  | [], acc => .ok acc
  | c :: cs, acc => Res.bind (hexVal c) fun v => intHexAux cs (acc * 16 + v)

/-- int('0x' + s, 16): ValueError on an empty or non-hex digit string. -/
def intHex (cs : List Nat) : Res Nat :=
  if cs.isEmpty then .err .valueError else intHexAux cs 0

/-- The list comprehension of responder.py line 272: one short per group
of four nibble labels, at the eight start indices of range(0, 32, 4). -/
def shortsLoop (nibbles : List (List Nat)) : List Nat → Res (List Nat)
  | [] => .ok []
  | n :: ns =>
    Res.bind (intHex ((pySlice nibbles n (n + 4)).flatten)) fun s =>
    Res.bind (shortsLoop nibbles ns) fun rest =>
    .ok (s :: rest)

/-- struct.pack('!HHHHHHHH', *shorts): each value must fit a u16. -/
def packShortsAux : List Nat → Res (List Nat)
  | [] => .ok []
  | s :: ss =>
    if s < 65536 then
      Res.bind (packShortsAux ss) fun rest => .ok (s / 256 :: s % 256 :: rest)
    else .err .structError

/-- struct.pack('!HHHHHHHH', *shorts): takes exactly eight values. -/
def packShorts (shorts : List Nat) : Res (List Nat) :=
  if shorts.length = 8 then packShortsAux shorts else .err .structError

/-- The address value derived by the responder's PTR parsing: for the
in-addr form, the dotted string it joins; for the ip6 form, the packed
16-byte value it builds (the source then renders it with
socket.inet_ntop, an injective external function of these bytes). -/
inductive ArpaAddr where
  | v4 : List Nat → ArpaAddr
  | v6 : List Nat → ArpaAddr
deriving DecidableEq, Repr

/-- The PTR name parsing of Responder.run (responder.py lines 262-277),
applied to the already-lowercased query-name labels: ok none models the
continue statements (query dropped), and Python IndexError or ValueError
exceptions propagate. -/
def ptrParse (labels : List (List Nat)) : Res (Option ArpaAddr) :=
  Res.bind (pyNegIndex labels 1) fun last =>
  if last = arpaStr then
    Res.bind (pyNegIndex labels 2) fun sec =>
    if sec = inAddrStr then
      .ok (some (.v4 (pyJoin ((pySlice labels 0 (labels.length - 2)).reverse))))
    else if sec = ip6Str then
      Res.bind
        (shortsLoop ((pySlice labels 0 (labels.length - 2)).reverse)
          [0, 4, 8, 12, 16, 20, 24, 28]) fun shorts =>
      Res.bind (packShorts shorts) fun packed =>
      .ok (some (.v6 packed))
    else .ok none
  else .ok none

/- ============ Responder receive path (claims C5, C8) ============ -/

/-- socket.IPPROTO_IP on Linux. -/
def IPPROTO_IP : Nat := 0

/-- socket.IPPROTO_IPV6 on Linux. -/
def IPPROTO_IPV6 : Nat := 41

/-- One ancillary control message as returned by recvmsg: level, type and
data bytes. -/
structure CMsgV where
  level : Nat
  ctype : Nat
  cdata : List Nat
deriving DecidableEq, Repr

/-- socket.inet_pton(AF_INET, '224.0.0.252'). -/
def group4 : List Nat := [224, 0, 0, 252]

/-- socket.inet_pton(AF_INET6, 'ff02:0:0:0:0:0:1:3'). -/
def group6 : List Nat := [255, 2, 0, 0, 0, 0, 0, 0, 0, 0, 0, 0, 0, 1, 0, 3]

/-- Responder._is_multicast (responder.py lines 187-197): unpack the
packet-info control message of the matching level and compare its
destination address bytes with the LLMNR group; any other level is not
multicast.  struct.unpack('I4s4s', data) takes 12 bytes with the
destination last; struct.unpack('16sI', data) takes 20 bytes with the
destination first; a wrong payload size raises struct.error. -/
def is_multicast (c : CMsgV) : Res Bool :=
  if c.level = IPPROTO_IP then
    if c.cdata.length = 12 then .ok (decide (pySlice c.cdata 8 12 = group4))
    else .err .structError
  else if c.level = IPPROTO_IPV6 then
    if c.cdata.length = 20 then .ok (decide (pySlice c.cdata 0 16 = group6))
    else .err .structError
  else .ok false

/-- A Python value that is either a str or a bytes object; equality
between a str and a bytes object is always false, which matters for the
packed_addresses membership test of the PTR branch. -/
inductive PyVal where
  | pstr : List Nat → PyVal
  | pbytes : List Nat → PyVal
deriving DecidableEq, Repr

/-- queries.py query_pairs. -/
def query_pairs : List (Nat × String) :=
  [(1, "A"), (2, "NS"), (3, "MD"), (4, "MF"), (5, "CNAME"), (6, "SOA"),
   (7, "MB"), (8, "MG"), (9, "MR"), (10, "NULL"), (11, "WKS"), (12, "PTR"),
   (13, "HINFO"), (14, "MINFO"), (15, "MX"), (16, "TXT"), (17, "RP"),
   (18, "AFSDB"), (19, "X25"), (20, "ISDN"), (21, "RT"), (22, "NSAP"),
   (23, "NSAP-PTR"), (24, "SIG"), (25, "KEY"), (26, "PX"), (27, "GPOS"),
   (28, "AAAA"), (29, "LOC"), (30, "NXT"), (31, "EID"), (32, "NIMLOC"),
   (33, "SRV"), (34, "ATMA"), (35, "NAPTR"), (36, "KX"), (37, "CERT"),
   (38, "A6"), (39, "DNAME"), (40, "SINK"), (41, "OPT"), (42, "APL"),
   (43, "DS"), (44, "SSHFP"), (45, "IPSECKEY"), (46, "RRSIG"), (47, "NSEC"),
   (48, "DNSKEY"), (49, "DHCID"), (50, "NSEC3"), (51, "NSEC3PARAM"),
   (52, "TLSA"), (55, "HIP"), (56, "NINFO"), (57, "RKEY"), (58, "TALINK"),
   (59, "CDS"), (60, "CDNSKEY"), (61, "OPENPGPKEY"), (99, "SPF"),
   (100, "UINFO"), (101, "UID"), (102, "GID"), (103, "UNSPEC"), (104, "NID"),
   (105, "L32"), (106, "L64"), (107, "LP"), (108, "EUI48"), (109, "EUI64"),
   (249, "TKEY"), (250, "TSIG"), (251, "IXFR"), (252, "AXFR"),
   (253, "MAILB"), (254, "MAILA"), (255, "*"), (256, "URI"), (257, "CAA"),
   (32768, "TA"), (32769, "DLV")]

/-- queries.py query_ntoa: the number-to-name dictionary; a missing key
raises KeyError at the call site. -/
def query_ntoa (n : Nat) : Option String :=
  (query_pairs.find? fun p => p.1 = n).map Prod.snd

/-- The answer oracle backing the responder, which the specification
declares an external collaborator (the on-disk configuration parser is
out of scope): getAddrV4 and getAddrV6 return the packed address bytes
produced by config.get_address followed by inet_pton, or none when
NoSectionError or AttributeError is raised; packedAddresses is
self.packed_addresses, built from inet_pton results (bytes values);
getName is config.get_name; ntopV6 is socket.inet_ntop(AF_INET6, -), an
external injective rendering of 16 packed bytes. -/
structure OracleV where
  getAddrV4 : List Nat → Option (List Nat)
  getAddrV6 : List Nat → Option (List Nat)
  packedAddresses : List PyVal
  getName : List Nat → Option (List Nat)
  ntopV6 : List Nat → List Nat

/-- Responder._dots_to_dns (responder.py lines 169-181): split on dots,
emit each label as a character-count byte plus UTF-8 bytes, then a
terminating zero.  The label loop is the same as in Question.bytes. -/
def dots_to_dns (name : List Nat) : Res (List Nat) :=
  Res.bind (encodeLabels (pySplit name)) fun bs => .ok (bs ++ [0])

/-- The answer-composition block of Responder.run (responder.py lines
244-304), for a validated query of the given qtype and lowercased qname:
ok none models every continue statement (the query is silently dropped
with no response), and ok (some answers) reaches the send path with the
accumulated (qtype, rdata) answers.

Note the A and AAAA branches: a qtype of * enters both, and a failed
get_address lookup executes continue, abandoning the whole query even
when the other family has an address. -/
def composeAnswers (oracle : OracleV) (qtype : String) (qname : List Nat) :
    Res (Option (List (String × List Nat))) :=
  match (if qtype = "A" || qtype = "*" then
           match oracle.getAddrV4 qname with
           | none => none
           | some ip => some [(("A" : String), ip)]
         else some []) with
  | none => .ok none
  | some ans1 =>
    match (if qtype = "AAAA" || qtype = "*" then
             match oracle.getAddrV6 qname with
             | none => none
             | some ip => some (ans1 ++ [(("AAAA" : String), ip)])
           else some ans1) with
    | none => .ok none
    | some ans2 =>
      if qtype = "PTR" then
        Res.bind (ptrParse (pySplit qname)) fun out =>
        match out with
        | none => .ok none
        | some pa =>
          let s := match pa with
            | .v4 str4 => str4
            | .v6 packed => oracle.ntopV6 packed
          if PyVal.pstr s ∈ oracle.packedAddresses then
            match oracle.getName s with
            | none => .ok none
            | some nm =>
              match dots_to_dns nm with
              | .ok bs => .ok (some (ans2 ++ [(("PTR" : String), bs)]))
              | .err _ => .ok none
              | .diverge => .diverge
          else .ok none
      else if qtype = "A" || qtype = "AAAA" || qtype = "*" then .ok (some ans2)
      else .ok none

/-- The outcome of one responder loop iteration on a received datagram. -/
inductive RAct where
  | dropUnicast
  | dropBadPacket
  | dropInvalid
  | dropNoAnswer
  | respond : List (String × List Nat) → RAct
deriving DecidableEq, Repr

/-- The query handling of Responder.run after receipt (responder.py lines
234-307): decode (exceptions drop the packet), validate, look up the
qtype name (KeyError for unknown TYPE propagates), lowercase the joined
name, and compose answers. -/
def handleQuery (oracle : OracleV) (received : List Nat) : Res RAct :=
  match decodePacket received (received.length + 1) with
  | .err _ => .ok .dropBadPacket
  | .diverge => .diverge
  | .ok query =>
    if query_is_valid query then
      match query.questions with
      | [] => .err .indexError
      | Q :: _ =>
        match query_ntoa Q.TYPE with
        | none => .err .keyError
        | some qtype =>
          Res.bind (composeAnswers oracle qtype (pyLower (pyJoin Q.labels)))
            fun out =>
          match out with
          | none => .ok .dropNoAnswer
          | some answers => .ok (.respond answers)
    else .ok .dropInvalid

/-- The UDP branch of one Responder.run iteration (responder.py lines
213-225 and the code that follows): when ancillary packet-info is
present and its destination is not the LLMNR group, the drop branch
first re-decodes the datagram for logging under a bare except clause
(try: P = Packet(bytearray(received)); print(P.questions[0]) except:
pass) and then continues: any exception of that decode is swallowed,
but a decode that never terminates hangs the loop instead of dropping
the datagram.  Otherwise handling proceeds. -/
def udpStep (oracle : OracleV) (received : List Nat) (info : List CMsgV) :
    Res RAct :=
  match info with
  | [] => handleQuery oracle received
  | c :: _ =>
    Res.bind (is_multicast c) fun m =>
    if m then handleQuery oracle received
    else
      match decodePacket received (received.length + 1) with
      | .diverge => .diverge
      | _ => .ok .dropUnicast

/-- An oracle with no configured names or addresses. -/
def emptyOracle : OracleV :=
  ⟨fun _ => none, fun _ => none, [], fun _ => none, fun _ => []⟩

/-- A packet-info control message of level IPPROTO_IP whose destination
address 1.2.3.4 is not the LLMNR multicast group. -/
def unicastCMsg : CMsgV := ⟨0, 8, [0, 0, 0, 0, 0, 0, 0, 0, 1, 2, 3, 4]⟩

/-- The Python string 'host'. -/
def hostStr : List Nat := [104, 111, 115, 116]

/-- A 16-byte IPv6 address for the host. -/
def c8Addr6 : List Nat := [254, 128, 0, 0, 0, 0, 0, 0, 2, 3, 4, 5, 6, 7, 8, 9]

/-- An oracle that is authoritative for the name host with an IPv6
address only: no IPv4 address exists for any name. -/
def c8Oracle : OracleV :=
  ⟨fun _ => none,
   fun q => if q = hostStr then some c8Addr6 else none,
   [PyVal.pbytes c8Addr6],
   fun _ => some hostStr,
   fun _ => []⟩

/-- A valid ANY query for the name host: QR=0, flags 0, QDCOUNT=1,
question of TYPE 255 (*), CLASS 1. -/
def c8Query : List Nat :=
  [0, 1, 0, 0, 0, 1, 0, 0, 0, 0, 0, 0] ++
  [4, 104, 111, 115, 116, 0, 0, 255, 0, 1]

/- ============ Sender.ask result paths (claim C9) ============ -/

/-- The label loop of Sender._dns_to_dotted (sender.py lines 154-157),
with fuel: no compression pointers are handled here. -/
def dottedLoop (data : List Nat) : Nat → Nat → List (List Nat) → Res (List (List Nat))
  | 0, _, _ => .diverge
  | fuel + 1, N, labels =>
    match pyIndex data N with
    | .err e => .err e
    | .diverge => .diverge
    | .ok b =>
      if b = 0 then .ok labels
      else
        Res.bind (utf8Decode (pySlice data (N + 1) (N + 1 + b))) fun lab =>
        dottedLoop data fuel (N + 1 + b) (labels ++ [lab])

/-- Sender._dns_to_dotted (sender.py lines 147-158). -/
def dnsToDotted (data : List Nat) : Res (List Nat) :=
  Res.bind (dottedLoop data (data.length + 1) 0 []) fun labels =>
  .ok (pyJoin labels)

/-- One answer record turned into a result tuple (sender.py lines
122-133): the qtype name lookup raises KeyError for unknown TYPE values,
and socket.inet_ntop raises ValueError on RDATA of the wrong length.
ntopV4 and ntopV6 are the external socket renderings. -/
def rrToResult (ntopV4 ntopV6 : List Nat → List Nat) (r : RRV) :
    Res (String × PyVal) :=
  match query_ntoa r.TYPE with
  | none => .err .keyError
  | some qt =>
    if qt = "A" then
      if r.RDATA.length = 4 then .ok (qt, .pstr (ntopV4 r.RDATA))
      else .err .valueError
    else if qt = "AAAA" then
      if r.RDATA.length = 16 then .ok (qt, .pstr (ntopV6 r.RDATA))
      else .err .valueError
    else if qt = "PTR" then
      Res.bind (dnsToDotted r.RDATA) fun s => .ok (qt, .pstr s)
    else .ok (qt, .pbytes r.RDATA)

/-- The answers of one packet, in order. -/
def collectRR (ntopV4 ntopV6 : List Nat → List Nat) :
    List RRV → Res (List (String × PyVal))
  | [] => .ok []
  | r :: rs =>
    Res.bind (rrToResult ntopV4 ntopV6 r) fun x =>
    Res.bind (collectRR ntopV4 ntopV6 rs) fun xs =>
    .ok (x :: xs)

/-- The result-assembly loop of Sender.ask (sender.py lines 120-133). -/
def collectAnswers (ntopV4 ntopV6 : List Nat → List Nat) :
    List PacketV → Res (List (String × PyVal))
  | [] => .ok []
  | p :: ps =>
    Res.bind (collectRR ntopV4 ntopV6 p.answers) fun xs =>
    Res.bind (collectAnswers ntopV4 ntopV6 ps) fun ys =>
    .ok (xs ++ ys)

/-- Sender._handle_conflict (sender.py lines 136-137): prints a message
and falls off the end of the function, so its value is None. -/
def conflictHandler (responses : List (PacketV × List Nat)) :
    Option (List (String × PyVal)) := none

/-- Sender.ask after UDP response collection (sender.py lines 109-134),
parameterized by the collected (packet, sender) list and by the value a
TCP retry of the same query would return (the TC branch re-enters ask
with a server argument).  The conflict check runs first; then the TCP
retry applies when exactly one response was collected and it has TC set;
an empty collection returns None; otherwise the answer sections are
assembled into the result list. -/
def askAfterCollect (ntopV4 ntopV6 : List Nat → List Nat)
    (responses : List (PacketV × List Nat))
    (tcpResult : Res (Option (List (String × PyVal)))) :
    Res (Option (List (String × PyVal))) :=
  if (responses.filter fun pr => pr.1.C).isEmpty then
    if responses.length = 1 && (responses.any fun pr => pr.1.TC) then tcpResult
    else if (responses.map Prod.fst).isEmpty then .ok none
    else
      Res.bind (collectAnswers ntopV4 ntopV6 (responses.map Prod.fst))
        fun result => .ok (some result)
  else .ok (conflictHandler responses)

/-- A response packet with the C (conflict) bit set: flags byte 0x04. -/
def c9ConflictPacket : PacketV := ⟨1, 4, 0, [], [], [], []⟩

/-- The external ntop renderings used at concrete evaluation points. -/
def noNtop : List Nat → List Nat := fun _ => []

/- ===================== Theorems ===================== -/

theorem Res.bind_ok {α β : Type} (a : α) (f : α → Res β) :
    Res.bind (.ok a) f = f a := rfl

theorem Res.bind_err {α β : Type} (e : PyErr) (f : α → Res β) :
    Res.bind (.err e) f = .err e := rfl

theorem Res.bind_diverge {α β : Type} (f : α → Res β) :
    Res.bind (.diverge) f = .diverge := rfl

/- The loop step on loopData at offset 2 goes back to offset 2. -/

theorem nameStep_loopData (acc : List (List Nat)) (saved : Option Nat) :
    nameStep loopData (2, acc, saved) = .inl (2, acc ++ [[97]], some 3) := rfl

theorem nameRun_loopData_inner (fuel : Nat) (acc : List (List Nat))
    (saved : Option Nat) :
    nameRun loopData fuel (2, acc, saved) = .diverge := by
  induction fuel generalizing acc saved with
  | zero => rfl
  | succ f ih => rw [nameRun, nameStep_loopData]; exact ih (acc ++ [[97]]) (some 3)

/-- C2: the specification states that name decoding terminates for every
input byte array, a visited-offset set preventing compression-pointer
loops, and that on a loop decoding fails with BadPointer.  The source has
no visited-offset set and no BadPointer error: on the byte array
[0x01, 0x61, 0xc0, 0x00] (label "a", then a pointer whose masked offset
is 0) the decoding loop of Question.__init__ revisits the same offset
forever, so for every fuel bound the run is still unfinished - the code
diverges instead of failing. -/
theorem c2_name_decode_diverges (fuel : Nat) :
    nameLoop loopData fuel 0 = .diverge := by
  cases fuel with
  | zero => rfl
  | succ f =>
    have hstep : nameStep loopData (0, [], none) = .inl (2, [[97]], none) := rfl
    rw [nameLoop, nameRun, hstep]
    exact nameRun_loopData_inner f [[97]] none

/-- C1: the OPCODE accessor does not return bits 14..11 of the flags
word.  On the decoded packet whose flags byte is 0x04 (OPCODE bits all
zero, C bit set), the accessor returns 4 while the specified value of
OPCODE is 0: the source expression flags & 0x78 >> 3 masks with
0x78 >> 3 = 0x0f instead of shifting after masking. -/
theorem c1_opcode_accessor_bug :
    decodePacket flagCData 20 = .ok flagCPacket ∧
    flagCPacket.OPCODE = 4 ∧
    specOPCODE flagCPacket.flags = 0 ∧
    flagCPacket.OPCODE ≠ specOPCODE flagCPacket.flags := by decide

/-- C4: query validation does not accept every packet with QR=0,
OPCODE=0 (bits 14..11), QDCOUNT=1, ANCOUNT=0, NSCOUNT=0.  The decoded
packet flagCPacket satisfies all five conjuncts - its C bit is set but
its true OPCODE bits are zero - yet _query_is_valid rejects it, because
the buggy OPCODE accessor reads the C/TC/T bits. -/
theorem c4_validation_rejects_c_bit :
    decodePacket flagCData 20 = .ok flagCPacket ∧
    query_is_valid flagCPacket = false ∧
    flagCPacket.QR = false ∧
    specOPCODE flagCPacket.flags = 0 ∧
    flagCPacket.QDCOUNT = 1 ∧
    flagCPacket.ANCOUNT = 0 ∧
    flagCPacket.NSCOUNT = 0 := by decide

/-- C3: encode-after-decode is not an identity up to re-decoding.  The
byte string c3Bytes is a valid packet (no compression pointers, counts
consistent with its one answer and two authority records), decodePacket
succeeds on it, yet re-decoding its re-encoding yields a packet whose
authority section differs: the authority-section loop advances by the
length of the last ANSWER record (N += len(A)) instead of the record just
decoded, so the second authority record is read at a misaligned offset
both times, and the two misreads disagree. -/
theorem c3_roundtrip_broken :
    decodePacket c3Bytes (c3Bytes.length + 1) = .ok c3P ∧
    c3ReDecode = .ok c3P2 ∧
    c3P2.nameservers ≠ c3P.nameservers ∧
    c3P2 ≠ c3P := by decide

/- C10 helper lemmas: on c10Loop the question-name loop diverges. -/

theorem nameRun_c10Loop_inner (fuel : Nat) (acc : List (List Nat))
    (saved : Option Nat) :
    nameRun c10Loop fuel (14, acc, saved) = .diverge := by
  induction fuel generalizing acc saved with
  | zero => rfl
  | succ f ih =>
    have hstep : nameStep c10Loop (14, acc, saved)
        = .inl (14, acc ++ [[97]], some 15) := rfl
    rw [nameRun, hstep]
    exact ih (acc ++ [[97]]) (some 15)

theorem decodePacket_c10Loop_diverges (fuel : Nat) :
    decodePacket c10Loop fuel = .diverge := by
  have hname : nameLoop c10Loop fuel 12 = .diverge := by
    cases fuel with
    | zero => rfl
    | succ f =>
      have hstep : nameStep c10Loop (12, [], none) = .inl (14, [[97]], none) := rfl
      rw [nameLoop, nameRun, hstep]
      exact nameRun_c10Loop_inner f [[97]] none
  have hq : decodeQuestion c10Loop 12 fuel = .diverge := by
    rw [decodeQuestion, hname]; rfl
  have hqs : decodeQuestions c10Loop fuel 1 12 = .diverge := by
    rw [decodeQuestions, hq]; rfl
  have hdr : unpackHeader c10Loop = .ok (0, 0, 0, 1, 0, 1, 0) := rfl
  simp only [decodePacket, hdr, Res.bind_ok, decodeSections, hqs,
    Res.bind_diverge]

/-- C10 counterexample: the claim states that every byte array whose
header declares ANCOUNT=0 and NSCOUNT >= 1 makes packet decoding raise an
exception.  On c10Loop the header declares exactly that, yet decoding
never raises: the single question contains a compression-pointer loop and
the decoder diverges inside the question name, for every fuel bound. -/
theorem c10_counterexample :
    unpackHeader c10Loop = .ok (0, 0, 0, 1, 0, 1, 0) ∧
    ¬ ∃ fuel e, decodePacket c10Loop fuel = Res.err e := by
  refine ⟨rfl, ?_⟩
  rintro ⟨fuel, e, h⟩
  rw [decodePacket_c10Loop_diverges fuel] at h
  exact Res.noConfusion h

/-- C10 amended: for every byte array whose 12-byte header declares
ANCOUNT=0 and NSCOUNT >= 1, packet decoding never returns a packet value:
whenever it terminates it raises an exception (the authority-section loop
advances the offset by the length of the last decoded answer record,
which does not exist when the answer section is empty), but it can also
diverge on a compression-pointer loop inside a name. -/
theorem c10_never_returns_packet (data : List Nat) (fuel : Nat)
    (pid fl co qd nsc ar : Nat)
    (h : unpackHeader data = .ok (pid, fl, co, qd, 0, nsc + 1, ar)) :
    (decodePacket data fuel).isOk = false := by
  cases hqs : decodeQuestions data fuel qd 12 with
  | err e =>
    simp only [decodePacket, h, Res.bind_ok, decodeSections, hqs,
      Res.bind_err, Res.isOk]
  | diverge =>
    simp only [decodePacket, h, Res.bind_ok, decodeSections, hqs,
      Res.bind_diverge, Res.isOk]
  | ok v =>
    have hempty : decodeRRs data fuel 0 v.2 = .ok ([], v.2) := rfl
    have hns : decodeNameservers data fuel none (nsc + 1) v.2
        = Res.bind (decodeRR data v.2 fuel) fun _ => .err .nameError := rfl
    simp only [decodePacket, h, Res.bind_ok, decodeSections, hqs, hempty,
      List.getLast?, Option.map, hns]
    cases hrr : decodeRR data v.2 fuel with
    | err e => rfl
    | diverge => rfl
    | ok s => rfl

/-- Witness for c10_never_returns_packet at the concrete 12-byte header
declaring ANCOUNT=0, NSCOUNT=1 - there decoding raises IndexError while
parsing the missing authority record. -/
theorem c10_never_returns_packet_witness :
    (decodePacket c10Short 13).isOk = false :=
  c10_never_returns_packet c10Short 13 0 0 0 0 0 0 rfl

/-- C5 counterexample: the claim states that every unicast UDP datagram
is silently discarded before validation.  On the unicast datagram
c10Loop, whose question name contains a compression-pointer loop, the
drop branch's logging re-decode never terminates: the iteration
diverges instead of discarding the datagram (the bare except around the
decode swallows exceptions but cannot stop non-termination). -/
theorem c5_counterexample :
    is_multicast unicastCMsg = .ok false ∧
    udpStep emptyOracle c10Loop [unicastCMsg] = .diverge ∧
    udpStep emptyOracle c10Loop [unicastCMsg] ≠ .ok .dropUnicast := by decide

/-- C5 amended: a UDP datagram whose ancillary packet-info destination
is not the LLMNR multicast group (224.0.0.252 for IPv4, ff02::1:3 for
IPv6) is never answered, for every received byte string and every
oracle state: the iteration either discards it silently before any
validation or answer composition, or hangs inside the drop branch when
the logging re-decode of the datagram diverges on a compression-pointer
loop - in neither case does a response come back. -/
theorem c5_unicast_never_answered (oracle : OracleV) (received : List Nat)
    (c : CMsgV) (rest : List CMsgV)
    (h : (c.level = IPPROTO_IP ∧ c.cdata.length = 12 ∧
            pySlice c.cdata 8 12 ≠ group4) ∨
         (c.level = IPPROTO_IPV6 ∧ c.cdata.length = 20 ∧
            pySlice c.cdata 0 16 ≠ group6)) :
    udpStep oracle received (c :: rest) = .ok .dropUnicast ∨
    udpStep oracle received (c :: rest) = .diverge := by
  have hm : is_multicast c = .ok false := by
    rcases h with ⟨hl, hlen, hne⟩ | ⟨hl, hlen, hne⟩
    · unfold is_multicast
      rw [hl]
      simp [IPPROTO_IP, hlen, decide_eq_false hne]
    · unfold is_multicast
      rw [hl]
      simp [IPPROTO_IP, IPPROTO_IPV6, hlen, decide_eq_false hne]
  cases hdec : decodePacket received (received.length + 1) with
  | diverge =>
    right
    simp only [udpStep, hm, Res.bind_ok, hdec]
    rfl
  | ok p =>
    left
    simp only [udpStep, hm, Res.bind_ok, hdec]
    rfl
  | err e =>
    left
    simp only [udpStep, hm, Res.bind_ok, hdec]
    rfl

/-- Witness for c5_unicast_never_answered: a well-formed empty datagram
with IPv4 packet-info destination 1.2.3.4 is not answered. -/
theorem c5_unicast_never_answered_witness :
    udpStep emptyOracle [] [unicastCMsg] = .ok .dropUnicast ∨
    udpStep emptyOracle [] [unicastCMsg] = .diverge :=
  c5_unicast_never_answered emptyOracle [] unicastCMsg []
    (Or.inl ⟨rfl, rfl, by decide⟩)

/-- C8: a valid ANY (qtype *) query naming a host for which the oracle
has only an IPv6 address yields no response at all - the A branch of the
answer composition executes continue when the IPv4 lookup fails, so the
AAAA record the oracle has is never returned, although a plain AAAA
query for the same name is answered with it. -/
theorem c8_any_query_not_answered :
    c8Oracle.getAddrV6 (pyLower (pyJoin [hostStr])) = some c8Addr6 ∧
    c8Oracle.getAddrV4 (pyLower (pyJoin [hostStr])) = none ∧
    composeAnswers c8Oracle "AAAA" hostStr
      = .ok (some [(("AAAA" : String), c8Addr6)]) ∧
    handleQuery c8Oracle c8Query = .ok .dropNoAnswer ∧
    composeAnswers c8Oracle "*" hostStr = .ok none := by decide

/-- C9 counterexample: ask does not reserve a conflict return value that
differs from the plain-failure None.  A collection containing one
response with C=1 makes ask return the conflict handler's value, which
is None - exactly what an empty collection (terminal failure) returns. -/
theorem c9_counterexample :
    c9ConflictPacket.C = true ∧
    askAfterCollect noNtop noNtop [(c9ConflictPacket, [])] (.ok none)
      = .ok none ∧
    askAfterCollect noNtop noNtop [] (.ok none) = .ok none := by decide

/-- C9 amended: Sender.ask returns None on a terminal failure (empty
collection), and when any collected response has the C bit set it
invokes the conflict handler and returns its result - which is also
None, not a distinguishable conflict value. -/
theorem c9_conflict_returns_none :
    (∀ (ntop4 ntop6 : List Nat → List Nat) tcp,
       askAfterCollect ntop4 ntop6 [] tcp = .ok none) ∧
    (∀ (ntop4 ntop6 : List Nat → List Nat) rs tcp,
       (rs.any fun pr => pr.1.C) = true →
       askAfterCollect ntop4 ntop6 rs tcp = .ok (conflictHandler rs) ∧
       conflictHandler rs = none) := by
  constructor
  · intro ntop4 ntop6 tcp
    rfl
  · intro ntop4 ntop6 rs tcp hany
    have hfilter : (rs.filter fun pr => pr.1.C).isEmpty = false := by
      rcases List.any_eq_true.mp hany with ⟨x, hx, hpx⟩
      have hne : rs.filter (fun pr => pr.1.C) ≠ [] := by
        intro hnil
        have h2 := List.filter_eq_nil_iff.mp hnil x hx
        simp [hpx] at h2
      cases hfe : rs.filter (fun pr => pr.1.C) with
      | nil => exact absurd hfe hne
      | cons y ys => simp [hfe]
    constructor
    · unfold askAfterCollect
      rw [hfilter]
      rfl
    · rfl

/-- Witness for c9_conflict_returns_none at an empty collection and at a
collection holding one C=1 response. -/
theorem c9_conflict_returns_none_witness :
    askAfterCollect noNtop noNtop [] (.ok none) = .ok none ∧
    (askAfterCollect noNtop noNtop [(c9ConflictPacket, [])] (.ok none)
       = .ok (conflictHandler [(c9ConflictPacket, [])]) ∧
     conflictHandler [(c9ConflictPacket, [])] = none) :=
  ⟨c9_conflict_returns_none.1 noNtop noNtop (.ok none),
   c9_conflict_returns_none.2 noNtop noNtop [(c9ConflictPacket, [])]
     (.ok none) (by decide)⟩

/- ============ C6: name round trip lemmas ============ -/

theorem utf8Encode_ascii (l : List Nat) (h : ∀ c ∈ l, c < 128) :
    utf8Encode l = .ok l := by
  induction l with
  | nil => rfl
  | cons c rest ih =>
    have hc : c < 128 := h c (List.mem_cons_self c rest)
    have hrest := ih fun x hx => h x (List.mem_cons_of_mem c hx)
    have hchar : utf8EncodeChar c = .ok [c] := by
      unfold utf8EncodeChar
      rw [if_pos hc]
    rw [utf8Encode, hchar, Res.bind_ok, hrest, Res.bind_ok]
    rfl

theorem utf8Run_ascii (l : List Nat) : ∀ fuel, (∀ c ∈ l, c < 128) →
    l.length ≤ fuel → utf8Run fuel l = .ok l := by
  induction l with
  | nil => intro fuel h hf; cases fuel <;> rfl
  | cons c rest ih =>
    intro fuel h hf
    obtain ⟨f, rfl⟩ : ∃ f, fuel = f + 1 := by
      simp only [List.length_cons] at hf
      exact ⟨fuel - 1, by omega⟩
    have hc : c < 128 := h c (List.mem_cons_self c rest)
    have hstep : utf8Step c rest = .ok (c, rest) := by
      unfold utf8Step
      rw [if_pos hc]
    have hrest := ih f (fun x hx => h x (List.mem_cons_of_mem c hx))
      (by simp only [List.length_cons] at hf; omega)
    rw [utf8Run, hstep, Res.bind_ok]
    show Res.bind (utf8Run f rest) (fun cs => .ok (c :: cs)) = .ok (c :: rest)
    rw [hrest, Res.bind_ok]

theorem utf8Decode_ascii (l : List Nat) (h : ∀ c ∈ l, c < 128) :
    utf8Decode l = .ok l :=
  utf8Run_ascii l l.length h (le_refl l.length)

theorem encodeLabels_ascii (N : List (List Nat))
    (h : ∀ l ∈ N, l.length ≤ 63 ∧ ∀ c ∈ l, c < 128) :
    encodeLabels N = .ok (encPure N) := by
  induction N with
  | nil => rfl
  | cons l ls ih =>
    obtain ⟨h63, hascii⟩ := h l (List.mem_cons_self l ls)
    have hrest := ih fun x hx => h x (List.mem_cons_of_mem l hx)
    have hlab : encodeLabel l = .ok (l.length :: l) := by
      unfold encodeLabel
      rw [if_pos (by omega), utf8Encode_ascii l hascii, Res.bind_ok]
    rw [encodeLabels, hlab, hrest]
    rfl

theorem pyIndex_at (u : List Nat) (x : Nat) (r : List Nat) :
    pyIndex (u ++ x :: r) u.length = .ok x := by
  unfold pyIndex
  rw [List.getElem?_append_right (le_refl u.length)]
  simp

theorem pySlice_append {γ : Type} (u v : List γ) (n : Nat) :
    pySlice (u ++ v) u.length (u.length + n) = v.take n := by
  unfold pySlice
  rw [List.take_append, List.drop_left]

theorem encPure_length_ge (N : List (List Nat)) :
    N.length ≤ (encPure N).length := by
  induction N with
  | nil => simp [encPure]
  | cons l ls ih => simp [encPure]; omega

/-- Main decoding lemma for claim C6: running the name loop on bytes of
the shape prefix ++ wire-name ++ 0 ++ rest, starting right after the
prefix, accumulates exactly the encoded labels and stops right after the
zero byte, whenever the labels are nonempty ASCII labels of at most 63
characters. -/
theorem nameRun_encPure (ls : List (List Nat)) :
    ∀ (data pre rest : List Nat) (acc : List (List Nat)) (fuel : Nat),
    data = pre ++ encPure ls ++ 0 :: rest →
    (∀ l ∈ ls, 1 ≤ l.length ∧ l.length ≤ 63 ∧ ∀ c ∈ l, c < 128) →
    ls.length < fuel →
    nameRun data fuel (pre.length, acc, none)
      = .ok (acc ++ ls, pre.length + (encPure ls).length + 1) := by
  induction ls with
  | nil =>
    intro data pre rest acc fuel hdata hgood hfuel
    obtain ⟨f, rfl⟩ : ∃ f, fuel = f + 1 := ⟨fuel - 1, by omega⟩
    simp only [encPure, List.append_nil] at hdata
    have hidx : pyIndex data pre.length = .ok 0 := by
      rw [hdata]
      exact pyIndex_at pre 0 rest
    have hstep : nameStep data (pre.length, acc, none)
        = .inr (.ok (acc, pre.length + 1)) := by
      simp only [nameStep, hidx, if_true]
    rw [nameRun, hstep]
    simp [encPure]
  | cons l ls2 ih =>
    intro data pre rest acc fuel hdata hgood hfuel
    obtain ⟨f, rfl⟩ : ∃ f, fuel = f + 1 := ⟨fuel - 1, by omega⟩
    obtain ⟨h1, h63, hascii⟩ := hgood l (List.mem_cons_self l ls2)
    have hgood2 : ∀ x ∈ ls2, 1 ≤ x.length ∧ x.length ≤ 63 ∧ ∀ c ∈ x, c < 128 :=
      fun x hx => hgood x (List.mem_cons_of_mem l hx)
    have hidx : pyIndex data pre.length = .ok l.length := by
      have hd1 : data = pre ++ l.length :: ((l ++ encPure ls2) ++ 0 :: rest) := by
        rw [hdata]
        simp [encPure]
      rw [hd1]
      exact pyIndex_at pre l.length ((l ++ encPure ls2) ++ 0 :: rest)
    have hne0 : ¬(l.length = 0) := by omega
    have hptr : ¬(l.length &&& 0xc0 = 0xc0) := by
      have hle : l.length &&& 0xc0 ≤ l.length := Nat.and_le_left
      omega
    have hsplit : data = (pre ++ [l.length]) ++ (l ++ (encPure ls2 ++ 0 :: rest)) := by
      rw [hdata]
      simp [encPure]
    have hu : (pre ++ [l.length]).length = pre.length + 1 := by simp
    have hslice : pySlice data (pre.length + 1) (pre.length + 1 + l.length) = l := by
      rw [hsplit, ← hu, pySlice_append, List.take_left]
    have hstep : nameStep data (pre.length, acc, none)
        = .inl (pre.length + 1 + l.length, acc ++ [l], none) := by
      simp only [nameStep, hidx, hne0, hptr, hslice, utf8Decode_ascii l hascii,
        if_false, ite_false]
    rw [nameRun, hstep]
    show nameRun data f (pre.length + 1 + l.length, acc ++ [l], none)
      = .ok (acc ++ l :: ls2, pre.length + (encPure (l :: ls2)).length + 1)
    have hdata2 : data = (pre ++ l.length :: l) ++ encPure ls2 ++ 0 :: rest := by
      rw [hdata]
      simp [encPure]
    have hfuel2 : ls2.length < f := by
      simp only [List.length_cons] at hfuel
      omega
    have h2 := ih data (pre ++ l.length :: l) rest (acc ++ [l]) f hdata2 hgood2 hfuel2
    have hlen1 : (pre ++ l.length :: l).length = pre.length + 1 + l.length := by
      simp
      omega
    rw [hlen1] at h2
    rw [h2]
    simp [encPure]
    omega

/-- C6 counterexample: the label of one character U+00E9 occupies two
UTF-8 bytes, so it is a label of 1..63 bytes with total encoded length 4,
yet decode(encode(name)) does not return the name: Question.bytes writes
the character count 1 as the length byte while appending two UTF-8
payload bytes, and decoding then splits the UTF-8 sequence and raises
UnicodeDecodeError. -/
theorem c6_counterexample :
    utf8Encode [233] = .ok [195, 169] ∧
    nameRoundTrip [[233]] = .err .unicodeDecodeError ∧
    nameRoundTrip [[233]] ≠ .ok [[233]] := by decide

/-- C6 amended: for every name whose labels are 1..63 ASCII characters
(so the character count written as the length byte equals the UTF-8 byte
count) and whose total encoded length is at most 255 bytes, decoding the
wire-format encoding yields the name again. -/
theorem c6_ascii_name_roundtrip (N : List (List Nat))
    (hgood : ∀ l ∈ N, 1 ≤ l.length ∧ l.length ≤ 63 ∧ ∀ c ∈ l, c < 128)
    (htotal : (encPure N).length + 1 ≤ 255) :
    nameRoundTrip N = .ok N := by
  have hgood63 : ∀ l ∈ N, l.length ≤ 63 ∧ ∀ c ∈ l, c < 128 :=
    fun l hl => ⟨(hgood l hl).2.1, (hgood l hl).2.2⟩
  have hlabels := encodeLabels_ascii N hgood63
  have hq : questionBytes ⟨N, 1, 1, 0⟩ = .ok (encPure N ++ [0, 0, 1, 0, 1]) := by
    simp only [questionBytes, hlabels]
    rfl
  have hdata : encPure N ++ [0, 0, 1, 0, 1]
      = ([] ++ encPure N) ++ 0 :: [0, 1, 0, 1] := by simp
  have hfuel : N.length < (encPure N ++ [0, 0, 1, 0, 1]).length + 1 := by
    have := encPure_length_ge N
    simp only [List.length_append, List.length_cons, List.length_nil]
    omega
  have hname := nameRun_encPure N (encPure N ++ [0, 0, 1, 0, 1]) [] [0, 1, 0, 1]
    [] ((encPure N ++ [0, 0, 1, 0, 1]).length + 1) hdata hgood hfuel
  simp only [List.length_nil, List.nil_append, Nat.zero_add] at hname
  have hsplit : encPure N ++ [0, 0, 1, 0, 1]
      = (encPure N ++ [0]) ++ [0, 1, 0, 1] := by simp
  have hu : (encPure N ++ [0]).length = (encPure N).length + 1 := by simp
  have hslice2 : pySlice (encPure N ++ [0, 0, 1, 0, 1]) ((encPure N).length + 1)
      ((encPure N).length + 1 + 4) = [0, 1, 0, 1] := by
    rw [hsplit, ← hu, pySlice_append]
    rfl
  have hHH : unpackHH (encPure N ++ [0, 0, 1, 0, 1]) ((encPure N).length + 1)
      = .ok (1, 1) := by
    unfold unpackHH
    rw [hslice2]
  simp only [nameRoundTrip, decodeQuestion, nameLoop, hq, Res.bind_ok, hname, hHH]

/-- Witness for c6_ascii_name_roundtrip at the two-label ASCII name
a.bb. -/
theorem c6_ascii_name_roundtrip_witness :
    nameRoundTrip [[97], [98, 98]] = .ok [[97], [98, 98]] :=
  c6_ascii_name_roundtrip [[97], [98, 98]] (by decide) (by decide)

/- ============ C7: split/join and character lemmas ============ -/

theorem pySplitGo_chunk (l : List Nat) : ∀ (s cur : List Nat),
    (∀ c ∈ l, c ≠ 46) →
    pySplitGo (l ++ s) cur = pySplitGo s (l.reverse ++ cur) := by
  induction l with
  | nil => intro s cur h; simp
  | cons c l2 ih =>
    intro s cur h
    have hc : c ≠ 46 := h c (List.mem_cons_self c l2)
    have hrec := ih s (c :: cur) fun x hx => h x (List.mem_cons_of_mem c hx)
    have hstep : pySplitGo ((c :: l2) ++ s) cur = pySplitGo (l2 ++ s) (c :: cur) := by
      show pySplitGo (c :: (l2 ++ s)) cur = pySplitGo (l2 ++ s) (c :: cur)
      rw [pySplitGo, if_neg hc]
    rw [hstep, hrec]
    congr 1
    simp

theorem pySplitGo_join (ls : List (List Nat)) : ∀ (l cur : List Nat),
    (∀ m ∈ l :: ls, ∀ c ∈ m, c ≠ 46) →
    pySplitGo (pyJoin (l :: ls)) cur = (cur.reverse ++ l) :: ls := by
  induction ls with
  | nil =>
    intro l cur h
    have hl : ∀ c ∈ l, c ≠ 46 := h l (List.mem_cons_self l [])
    have : pySplitGo (l ++ []) cur = pySplitGo [] (l.reverse ++ cur) :=
      pySplitGo_chunk l [] cur hl
    rw [List.append_nil] at this
    show pySplitGo l cur = [cur.reverse ++ l]
    rw [this]
    show [(l.reverse ++ cur).reverse] = [cur.reverse ++ l]
    simp
  | cons l2 ls3 ih =>
    intro l cur h
    have hl : ∀ c ∈ l, c ≠ 46 := h l (List.mem_cons_self l (l2 :: ls3))
    have h2 : ∀ m ∈ l2 :: ls3, ∀ c ∈ m, c ≠ 46 :=
      fun m hm => h m (List.mem_cons_of_mem l hm)
    have hjoin : pyJoin (l :: l2 :: ls3) = l ++ 46 :: pyJoin (l2 :: ls3) := rfl
    rw [hjoin, pySplitGo_chunk l (46 :: pyJoin (l2 :: ls3)) cur hl]
    rw [pySplitGo, if_pos rfl]
    rw [ih l2 [] h2]
    simp

theorem pySplit_pyJoin (ls : List (List Nat)) (hne : ls ≠ [])
    (h : ∀ m ∈ ls, ∀ c ∈ m, c ≠ 46) :
    pySplit (pyJoin ls) = ls := by
  match ls, hne with
  | l :: ls2, _ =>
    show pySplitGo (pyJoin (l :: ls2)) [] = l :: ls2
    rw [pySplitGo_join ls2 l [] h]
    simp

theorem mem_pyJoin (ls : List (List Nat)) : ∀ c ∈ pyJoin ls,
    c = 46 ∨ ∃ m ∈ ls, c ∈ m := by
  induction ls with
  | nil => intro c hc; simp [pyJoin] at hc
  | cons l ls2 ih =>
    intro c hc
    cases ls2 with
    | nil =>
      simp only [pyJoin] at hc
      exact Or.inr ⟨l, List.mem_cons_self l [], hc⟩
    | cons l2 ls3 =>
      rw [show pyJoin (l :: l2 :: ls3) = l ++ 46 :: pyJoin (l2 :: ls3) from rfl]
        at hc
      rcases List.mem_append.mp hc with hin | hin
      · exact Or.inr ⟨l, List.mem_cons_self l (l2 :: ls3), hin⟩
      · rcases List.mem_cons.mp hin with h46 | hin2
        · exact Or.inl h46
        · rcases ih c hin2 with h46 | ⟨m, hm, hcm⟩
          · exact Or.inl h46
          · exact Or.inr ⟨m, List.mem_cons_of_mem l hm, hcm⟩

theorem pyLower_fix (s : List Nat) (h : ∀ c ∈ s, ¬(65 ≤ c ∧ c ≤ 90)) :
    pyLower s = s := by
  induction s with
  | nil => rfl
  | cons c rest ih =>
    have hc := h c (List.mem_cons_self c rest)
    have hrest := ih fun x hx => h x (List.mem_cons_of_mem c hx)
    show (if 65 ≤ c ∧ c ≤ 90 then c + 32 else c) :: pyLower rest = c :: rest
    rw [if_neg hc, hrest]

theorem natDigits_digits (n : Nat) (hn : n < 1000) :
    ∀ c ∈ natDigits n, 48 ≤ c ∧ c ≤ 57 := by
  intro c hc
  unfold natDigits at hc
  split_ifs at hc with h1 h2
  · simp at hc
    omega
  · simp at hc
    rcases hc with hc | hc <;> omega
  · simp at hc
    rcases hc with hc | hc | hc <;> omega

theorem hexDigit_props (v : Nat) :
    hexDigit v ≠ 46 ∧ ¬(65 ≤ hexDigit v ∧ hexDigit v ≤ 90) := by
  unfold hexDigit
  split_ifs <;> omega

theorem mem_hexChars (bs : List Nat) : ∀ ch ∈ hexChars bs, ∃ v, ch = hexDigit v := by
  induction bs with
  | nil => intro ch hc; simp [hexChars] at hc
  | cons b rest ih =>
    intro ch hc
    rw [show hexChars (b :: rest)
        = hexDigit (b / 16) :: hexDigit (b % 16) :: hexChars rest from rfl] at hc
    rcases List.mem_cons.mp hc with h | h
    · exact ⟨b / 16, h⟩
    · rcases List.mem_cons.mp h with h | h
      · exact ⟨b % 16, h⟩
      · exact ih ch h

theorem hexVal_hexDigit (v : Nat) (hv : v < 16) : hexVal (hexDigit v) = .ok v := by
  unfold hexDigit hexVal
  split_ifs <;> first
    | exact congrArg Res.ok (by omega)
    | (exfalso; omega)

theorem groupShort (x y : Nat) (hx : x < 256) (hy : y < 256) :
    intHex [hexDigit (x / 16), hexDigit (x % 16), hexDigit (y / 16),
            hexDigit (y % 16)] = .ok (x * 256 + y) := by
  have e1 := hexVal_hexDigit (x / 16) (by omega)
  have e2 := hexVal_hexDigit (x % 16) (by omega)
  have e3 := hexVal_hexDigit (y / 16) (by omega)
  have e4 := hexVal_hexDigit (y % 16) (by omega)
  show intHexAux [hexDigit (x / 16), hexDigit (x % 16), hexDigit (y / 16),
      hexDigit (y % 16)] 0 = .ok (x * 256 + y)
  simp only [intHexAux, e1, e2, e3, e4, Res.bind_ok]
  exact congrArg Res.ok (by omega)

theorem packShortsAux_pairs (ps : List (Nat × Nat))
    (h : ∀ p ∈ ps, p.1 < 256 ∧ p.2 < 256) :
    packShortsAux (ps.map fun p => p.1 * 256 + p.2)
      = .ok (ps.foldr (fun p acc => p.1 :: p.2 :: acc) []) := by
  induction ps with
  | nil => rfl
  | cons p ps2 ih =>
    obtain ⟨h1, h2⟩ := h p (List.mem_cons_self p ps2)
    have hrest := ih fun q hq => h q (List.mem_cons_of_mem p hq)
    show packShortsAux ((p.1 * 256 + p.2) :: ps2.map fun q => q.1 * 256 + q.2)
      = _
    rw [packShortsAux, if_pos (by omega : p.1 * 256 + p.2 < 65536), hrest,
      Res.bind_ok]
    have hdiv : (p.1 * 256 + p.2) / 256 = p.1 := by omega
    have hmod : (p.1 * 256 + p.2) % 256 = p.2 := by omega
    rw [hdiv, hmod]
    rfl

theorem pyNegIndex_snoc2_1 {γ : Type} (u : List γ) (x y : γ) :
    pyNegIndex (u ++ [x, y]) 1 = .ok y := by
  unfold pyNegIndex
  have hlen : (u ++ [x, y]).length = u.length + 2 := by simp
  rw [if_pos (by omega), hlen]
  have : u.length + 2 - 1 = u.length + 1 := by omega
  rw [this, List.getElem?_append_right (by omega)]
  have : u.length + 1 - u.length = 1 := by omega
  rw [this]
  rfl

theorem pyNegIndex_snoc2_2 {γ : Type} (u : List γ) (x y : γ) :
    pyNegIndex (u ++ [x, y]) 2 = .ok x := by
  unfold pyNegIndex
  have hlen : (u ++ [x, y]).length = u.length + 2 := by simp
  rw [if_pos (by omega), hlen]
  have : u.length + 2 - 2 = u.length := by omega
  rw [this, List.getElem?_append_right (by omega)]
  have : u.length - u.length = 0 := by omega
  rw [this]
  rfl

theorem pySlice_dropLast2 {γ : Type} (u : List γ) (x y : γ) :
    pySlice (u ++ [x, y]) 0 ((u ++ [x, y]).length - 2) = u := by
  unfold pySlice
  have hlen : (u ++ [x, y]).length = u.length + 2 := by simp
  rw [hlen]
  have : u.length + 2 - 2 = u.length := by omega
  rw [this, List.take_left, List.drop_zero]

theorem hexChars_length (bs : List Nat) : (hexChars bs).length = 2 * bs.length := by
  induction bs with
  | nil => rfl
  | cons b rest ih =>
    show (hexChars rest).length + 1 + 1 = 2 * (rest.length + 1)
    omega

theorem ptr_v4_roundtrip (a b c d : Nat) (ha : a < 256) (hb : b < 256)
    (hc : c < 256) (hd : d < 256) :
    ptrParse (pySplit (pyLower (to_arpa_v4 (v4String a b c d))))
      = .ok (some (.v4 (v4String a b c d))) := by
  have hdo : ∀ m ∈ [natDigits a, natDigits b, natDigits c, natDigits d],
      ∀ ch ∈ m, ch ≠ 46 := by
    intro m hm ch hch
    simp only [List.mem_cons, List.not_mem_nil, or_false] at hm
    rcases hm with rfl | rfl | rfl | rfl
    · have hx := natDigits_digits a (by omega) ch hch
      omega
    · have hx := natDigits_digits b (by omega) ch hch
      omega
    · have hx := natDigits_digits c (by omega) ch hch
      omega
    · have hx := natDigits_digits d (by omega) ch hch
      omega
  have h1 : pySplit (v4String a b c d)
      = [natDigits a, natDigits b, natDigits c, natDigits d] := by
    unfold v4String
    exact pySplit_pyJoin _ (by simp) hdo
  have hname : to_arpa_v4 (v4String a b c d)
      = pyJoin [natDigits d, natDigits c, natDigits b, natDigits a,
                inAddrStr, arpaStr] := by
    unfold to_arpa_v4
    rw [h1]
    rfl
  have hfixed : ∀ x ∈ inAddrStr ++ arpaStr, x ≠ 46 ∧ ¬(65 ≤ x ∧ x ≤ 90) := by
    decide
  have hdo2 : ∀ m ∈ [natDigits d, natDigits c, natDigits b, natDigits a,
      inAddrStr, arpaStr], ∀ ch ∈ m, ch ≠ 46 := by
    intro m hm ch hch
    simp only [List.mem_cons, List.not_mem_nil, or_false] at hm
    rcases hm with rfl | rfl | rfl | rfl | rfl | rfl
    · have := natDigits_digits d (by omega) ch hch; omega
    · have := natDigits_digits c (by omega) ch hch; omega
    · have := natDigits_digits b (by omega) ch hch; omega
    · have := natDigits_digits a (by omega) ch hch; omega
    · exact (hfixed ch (List.mem_append.mpr (Or.inl hch))).1
    · exact (hfixed ch (List.mem_append.mpr (Or.inr hch))).1
  have hlow : pyLower (pyJoin [natDigits d, natDigits c, natDigits b,
      natDigits a, inAddrStr, arpaStr])
      = pyJoin [natDigits d, natDigits c, natDigits b, natDigits a,
                inAddrStr, arpaStr] := by
    apply pyLower_fix
    intro ch hch
    rcases mem_pyJoin _ ch hch with h46 | ⟨m, hm, hcm⟩
    · subst h46; omega
    · simp only [List.mem_cons, List.not_mem_nil, or_false] at hm
      rcases hm with rfl | rfl | rfl | rfl | rfl | rfl
      · have := natDigits_digits d (by omega) ch hcm; omega
      · have := natDigits_digits c (by omega) ch hcm; omega
      · have := natDigits_digits b (by omega) ch hcm; omega
      · have := natDigits_digits a (by omega) ch hcm; omega
      · exact (hfixed ch (List.mem_append.mpr (Or.inl hcm))).2
      · exact (hfixed ch (List.mem_append.mpr (Or.inr hcm))).2
  have hsplit2 : pySplit (pyJoin [natDigits d, natDigits c, natDigits b,
      natDigits a, inAddrStr, arpaStr])
      = [natDigits d, natDigits c, natDigits b, natDigits a,
         inAddrStr, arpaStr] :=
    pySplit_pyJoin _ (by simp) hdo2
  rw [hname, hlow, hsplit2]
  rfl

theorem ptr_v6_roundtrip (bs : List Nat) (hlen : bs.length = 16)
    (hb : ∀ x ∈ bs, x < 256) :
    ptrParse (pySplit (pyLower (to_arpa_v6 bs))) = .ok (some (.v6 bs)) := by
  have hhex : ∀ ch ∈ hexChars bs, ch ≠ 46 ∧ ¬(65 ≤ ch ∧ ch ≤ 90) := by
    intro ch hch
    obtain ⟨v, rfl⟩ := mem_hexChars bs ch hch
    exact hexDigit_props v
  have hfixed : ∀ x ∈ ip6Str ++ arpaStr, x ≠ 46 ∧ ¬(65 ≤ x ∧ x ≤ 90) := by
    decide
  have hdo : ∀ m ∈ ((hexChars bs).reverse.map (fun c => [c])
      ++ [ip6Str, arpaStr]), ∀ ch ∈ m, ch ≠ 46 := by
    intro m hm ch hch
    rcases List.mem_append.mp hm with hmap | hfix
    · obtain ⟨c0, hc0, rfl⟩ := List.mem_map.mp hmap
      rcases List.mem_singleton.mp hch with rfl
      exact (hhex ch (List.mem_reverse.mp hc0)).1
    · simp only [List.mem_cons, List.not_mem_nil, or_false] at hfix
      rcases hfix with rfl | rfl
      · exact (hfixed ch (List.mem_append.mpr (Or.inl hch))).1
      · exact (hfixed ch (List.mem_append.mpr (Or.inr hch))).1
  have hnotup : ∀ ch ∈ pyJoin ((hexChars bs).reverse.map (fun c => [c])
      ++ [ip6Str, arpaStr]), ¬(65 ≤ ch ∧ ch ≤ 90) := by
    intro ch hch
    rcases mem_pyJoin _ ch hch with h46 | ⟨m, hm, hcm⟩
    · subst h46; omega
    · rcases List.mem_append.mp hm with hmap | hfix
      · obtain ⟨c0, hc0, rfl⟩ := List.mem_map.mp hmap
        rcases List.mem_singleton.mp hcm with rfl
        exact (hhex ch (List.mem_reverse.mp hc0)).2
      · simp only [List.mem_cons, List.not_mem_nil, or_false] at hfix
        rcases hfix with rfl | rfl
        · exact (hfixed ch (List.mem_append.mpr (Or.inl hcm))).2
        · exact (hfixed ch (List.mem_append.mpr (Or.inr hcm))).2
  have hlow : pyLower (to_arpa_v6 bs) = to_arpa_v6 bs := by
    unfold to_arpa_v6
    exact pyLower_fix _ hnotup
  have hsplit : pySplit (to_arpa_v6 bs)
      = (hexChars bs).reverse.map (fun c => [c]) ++ [ip6Str, arpaStr] := by
    unfold to_arpa_v6
    exact pySplit_pyJoin _ (by simp) hdo
  rw [hlow, hsplit]
  unfold ptrParse
  rw [pyNegIndex_snoc2_1, Res.bind_ok]
  rw [if_pos rfl]
  rw [pyNegIndex_snoc2_2, Res.bind_ok]
  rw [if_neg (by decide : ¬(ip6Str = inAddrStr)), if_pos rfl]
  rw [pySlice_dropLast2]
  have hrev : (((hexChars bs).reverse.map fun c => [c]).reverse)
      = (hexChars bs).map fun c => [c] := by
    simp
  rw [hrev]
  rcases bs with _ | ⟨b0, bs⟩
  · simp at hlen
  rcases bs with _ | ⟨b1, bs⟩
  · simp at hlen
  rcases bs with _ | ⟨b2, bs⟩
  · simp at hlen
  rcases bs with _ | ⟨b3, bs⟩
  · simp at hlen
  rcases bs with _ | ⟨b4, bs⟩
  · simp at hlen
  rcases bs with _ | ⟨b5, bs⟩
  · simp at hlen
  rcases bs with _ | ⟨b6, bs⟩
  · simp at hlen
  rcases bs with _ | ⟨b7, bs⟩
  · simp at hlen
  rcases bs with _ | ⟨b8, bs⟩
  · simp at hlen
  rcases bs with _ | ⟨b9, bs⟩
  · simp at hlen
  rcases bs with _ | ⟨b10, bs⟩
  · simp at hlen
  rcases bs with _ | ⟨b11, bs⟩
  · simp at hlen
  rcases bs with _ | ⟨b12, bs⟩
  · simp at hlen
  rcases bs with _ | ⟨b13, bs⟩
  · simp at hlen
  rcases bs with _ | ⟨b14, bs⟩
  · simp at hlen
  rcases bs with _ | ⟨b15, bs⟩
  · simp at hlen
  have hnil : bs = [] := by simpa using hlen
  subst hnil
  have hx0 : b0 < 256 := hb b0 (by simp)
  have hx1 : b1 < 256 := hb b1 (by simp)
  have hx2 : b2 < 256 := hb b2 (by simp)
  have hx3 : b3 < 256 := hb b3 (by simp)
  have hx4 : b4 < 256 := hb b4 (by simp)
  have hx5 : b5 < 256 := hb b5 (by simp)
  have hx6 : b6 < 256 := hb b6 (by simp)
  have hx7 : b7 < 256 := hb b7 (by simp)
  have hx8 : b8 < 256 := hb b8 (by simp)
  have hx9 : b9 < 256 := hb b9 (by simp)
  have hx10 : b10 < 256 := hb b10 (by simp)
  have hx11 : b11 < 256 := hb b11 (by simp)
  have hx12 : b12 < 256 := hb b12 (by simp)
  have hx13 : b13 < 256 := hb b13 (by simp)
  have hx14 : b14 < 256 := hb b14 (by simp)
  have hx15 : b15 < 256 := hb b15 (by simp)
  have g0 : intHex ((pySlice ((hexChars [b0, b1, b2, b3, b4, b5, b6, b7, b8,
      b9, b10, b11, b12, b13, b14, b15]).map fun c => [c]) 0 4).flatten)
      = .ok (b0 * 256 + b1) := groupShort b0 b1 hx0 hx1
  have g1 : intHex ((pySlice ((hexChars [b0, b1, b2, b3, b4, b5, b6, b7, b8,
      b9, b10, b11, b12, b13, b14, b15]).map fun c => [c]) 4 8).flatten)
      = .ok (b2 * 256 + b3) := groupShort b2 b3 hx2 hx3
  have g2 : intHex ((pySlice ((hexChars [b0, b1, b2, b3, b4, b5, b6, b7, b8,
      b9, b10, b11, b12, b13, b14, b15]).map fun c => [c]) 8 12).flatten)
      = .ok (b4 * 256 + b5) := groupShort b4 b5 hx4 hx5
  have g3 : intHex ((pySlice ((hexChars [b0, b1, b2, b3, b4, b5, b6, b7, b8,
      b9, b10, b11, b12, b13, b14, b15]).map fun c => [c]) 12 16).flatten)
      = .ok (b6 * 256 + b7) := groupShort b6 b7 hx6 hx7
  have g4 : intHex ((pySlice ((hexChars [b0, b1, b2, b3, b4, b5, b6, b7, b8,
      b9, b10, b11, b12, b13, b14, b15]).map fun c => [c]) 16 20).flatten)
      = .ok (b8 * 256 + b9) := groupShort b8 b9 hx8 hx9
  have g5 : intHex ((pySlice ((hexChars [b0, b1, b2, b3, b4, b5, b6, b7, b8,
      b9, b10, b11, b12, b13, b14, b15]).map fun c => [c]) 20 24).flatten)
      = .ok (b10 * 256 + b11) := groupShort b10 b11 hx10 hx11
  have g6 : intHex ((pySlice ((hexChars [b0, b1, b2, b3, b4, b5, b6, b7, b8,
      b9, b10, b11, b12, b13, b14, b15]).map fun c => [c]) 24 28).flatten)
      = .ok (b12 * 256 + b13) := groupShort b12 b13 hx12 hx13
  have g7 : intHex ((pySlice ((hexChars [b0, b1, b2, b3, b4, b5, b6, b7, b8,
      b9, b10, b11, b12, b13, b14, b15]).map fun c => [c]) 28 32).flatten)
      = .ok (b14 * 256 + b15) := groupShort b14 b15 hx14 hx15
  have hshorts : shortsLoop ((hexChars [b0, b1, b2, b3, b4, b5, b6, b7, b8,
      b9, b10, b11, b12, b13, b14, b15]).map fun c => [c])
      [0, 4, 8, 12, 16, 20, 24, 28]
      = .ok [b0 * 256 + b1, b2 * 256 + b3, b4 * 256 + b5, b6 * 256 + b7,
             b8 * 256 + b9, b10 * 256 + b11, b12 * 256 + b13,
             b14 * 256 + b15] := by
    simp only [shortsLoop, g0, g1, g2, g3, g4, g5, g6, g7, Res.bind_ok]
  have hpairs := packShortsAux_pairs
    [(b0, b1), (b2, b3), (b4, b5), (b6, b7), (b8, b9), (b10, b11),
     (b12, b13), (b14, b15)]
    (by
      intro p hp
      simp only [List.mem_cons, List.not_mem_nil, or_false] at hp
      rcases hp with rfl | rfl | rfl | rfl | rfl | rfl | rfl | rfl <;>
        exact ⟨by assumption, by assumption⟩)
  have hpack : packShorts [b0 * 256 + b1, b2 * 256 + b3, b4 * 256 + b5,
      b6 * 256 + b7, b8 * 256 + b9, b10 * 256 + b11, b12 * 256 + b13,
      b14 * 256 + b15]
      = .ok [b0, b1, b2, b3, b4, b5, b6, b7, b8, b9, b10, b11, b12, b13,
             b14, b15] := by
    unfold packShorts
    rw [if_pos (by rfl)]
    exact hpairs
  rw [hshorts, Res.bind_ok, hpack, Res.bind_ok]

/-- C7: reverse-zone name round trips.  For every IPv4 address, splitting
its canonical dotted string, reversing, appending in-addr.arpa and
joining (Sender._to_arpa), then parsing that name back with the
responder's PTR logic (after lowercasing), yields the same dotted
address string; for every 16-byte IPv6 address, building the 32-nibble
ip6.arpa name and parsing it back yields the same packed 16 bytes (which
socket.inet_ntop then renders injectively). -/
theorem c7_arpa_roundtrip :
    (∀ a b c d : Nat, a < 256 → b < 256 → c < 256 → d < 256 →
       ptrParse (pySplit (pyLower (to_arpa_v4 (v4String a b c d))))
         = .ok (some (.v4 (v4String a b c d)))) ∧
    (∀ bs : List Nat, bs.length = 16 → (∀ x ∈ bs, x < 256) →
       ptrParse (pySplit (pyLower (to_arpa_v6 bs))) = .ok (some (.v6 bs))) :=
  ⟨fun a b c d ha hb hc hd => ptr_v4_roundtrip a b c d ha hb hc hd,
   fun bs h1 h2 => ptr_v6_roundtrip bs h1 h2⟩

/-- Witness for c7_arpa_roundtrip at 10.0.0.7 and at a concrete 16-byte
IPv6 address. -/
theorem c7_arpa_roundtrip_witness :
    ptrParse (pySplit (pyLower (to_arpa_v4 (v4String 10 0 0 7))))
      = .ok (some (.v4 (v4String 10 0 0 7))) ∧
    ptrParse (pySplit (pyLower (to_arpa_v6 c8Addr6)))
      = .ok (some (.v6 c8Addr6)) :=
  ⟨c7_arpa_roundtrip.1 10 0 0 7 (by decide) (by decide) (by decide) (by decide),
   c7_arpa_roundtrip.2 c8Addr6 (by decide) (by decide)⟩
